import Mathlib

/- Shallow embedding of the encryption key lifecycle manager of this
repository (`src/utils/keyManager.ts`) together with the environment
classifier it consumes (`src/utils/platformCheck.ts`).

The embedding is explicit-state: the device secure store
(`expo-secure-store`) is a record of the three entries the manager uses,
each `SecureStore` call consumes one index of a fault oracle deciding
whether that call throws, `Date.now()` is a field of the world, and the
random source backing `generateSecureKey` is a stream of byte streams.
JavaScript numbers produced by `parseInt` are modelled as `Option Int`
with `none` playing the role of `NaN`. -/

set_option maxHeartbeats 1000000

/- Constants of `src/utils/keyManager.ts` (lines 4-8), plus the keychain
service string that appears inline in `storeKeySecurely`. -/

def ENCRYPTION_KEY_ALIAS : String := "dask_encryption_key"

def KEY_ROTATION_INTERVAL : Int := 7 * 24 * 60 * 60 * 1000

def KEY_CREATION_DATE_ALIAS : String := "dask_key_creation_date"

def KEY_VERSION_ALIAS : String := "dask_key_version"

def KEYCHAIN_SERVICE : String := "dask-driver-keychain"

/- Decimal rendering of numbers, as JavaScript `Number.prototype.toString`
renders the integer values this module produces. Fuel-indexed so that the
definition is structurally recursive and kernel-reducible. -/

def digitChar (d : Nat) : Char := Char.ofNat (48 + d)

def natToCharsAux : Nat → Nat → List Char
  | 0, _ => []
  | fuel + 1, n =>
    if n < 10 then [digitChar n]
    else natToCharsAux fuel (n / 10) ++ [digitChar (n % 10)]

def natToString (n : Nat) : String := ⟨natToCharsAux (n + 1) n⟩

/- Rendering of a JavaScript number that may be `NaN` (`none`). -/
def jsNumToString : Option Int → String
  | none => "NaN"
  | some i => if i < 0 then "-" ++ natToString i.natAbs else natToString i.natAbs

/- JavaScript `parseInt(s, 10)`: skip leading whitespace, optional sign,
then the longest prefix of decimal digits; `NaN` (`none`) if that prefix
is empty. -/

def jsIsSpace (c : Char) : Bool := c == ' ' || c == '\t' || c == '\n' || c == '\r'

def digitsToNat (cs : List Char) : Nat := cs.foldl (fun a c => a * 10 + (c.toNat - 48)) 0

def parseDigits (cs : List Char) : Option Nat :=
  let ds := cs.takeWhile Char.isDigit
  if ds.isEmpty then none else some (digitsToNat ds)

def parseIntJS (s : String) : Option Int :=
  match s.data.dropWhile jsIsSpace with
  | [] => none
  | c :: rest =>
    if c = '-' then (parseDigits rest).map fun n => -(n : Int)
    else if c = '+' then (parseDigits rest).map fun n => (n : Int)
    else (parseDigits (c :: rest)).map fun n => (n : Int)

/- Base64 as performed by `globalThis.btoa` on the byte string built in
`generateSecureKey` (keyManager.ts line 30): 3 bytes become 4 alphabet
characters, a 2-byte tail becomes 3 characters and one `=` pad, a 1-byte
tail becomes 2 characters and two `=` pads. -/

def base64Alphabet : List Char :=
  "ABCDEFGHIJKLMNOPQRSTUVWXYZabcdefghijklmnopqrstuvwxyz0123456789+/".data

def encChar (s : Nat) : Char := base64Alphabet.getD s 'A'

def decCharAux : List Char → Nat → Char → Nat
  | [], _, _ => 0
  | a :: rest, i, c => if a = c then i else decCharAux rest (i + 1) c

def decChar (c : Char) : Nat := decCharAux base64Alphabet 0 c

def bytesToSextets : List Nat → List Nat
  | a :: b :: c :: rest =>
    let n := a * 65536 + b * 256 + c
    n / 262144 :: n / 4096 % 64 :: n / 64 % 64 :: n % 64 :: bytesToSextets rest
  | [a, b] =>
    let n := a * 65536 + b * 256
    [n / 262144, n / 4096 % 64, n / 64 % 64]
  | [a] =>
    let n := a * 65536
    [n / 262144, n / 4096 % 64]
  | [] => []

def sextetsToBytes : List Nat → List Nat
  | s1 :: s2 :: s3 :: s4 :: rest =>
    let n := s1 * 262144 + s2 * 4096 + s3 * 64 + s4
    n / 65536 :: n / 256 % 256 :: n % 256 :: sextetsToBytes rest
  | [s1, s2, s3] =>
    let m := s1 * 4096 + s2 * 64 + s3
    [m / 1024, m / 4 % 256]
  | [s1, s2] =>
    let m := s1 * 64 + s2
    [m / 16]
  | [_] => []
  | [] => []

def padChars (len : Nat) : List Char :=
  if len % 3 = 1 then ['=', '=']
  else if len % 3 = 2 then ['=']
  else []

def base64Encode (bytes : List Nat) : String :=
  ⟨(bytesToSextets bytes).map encChar ++ padChars bytes.length⟩

def base64Decode (s : String) : List Nat :=
  sextetsToBytes ((s.data.filter (fun c => c != '=')).map decChar)

/- `generateSecureKey` (keyManager.ts lines 14-31): 32 bytes drawn from a
random source — `crypto.getRandomValues` on a `Uint8Array`, or the
`Math.random` fallback — then base64-encoded.  Either source fills a
`Uint8Array`, whose cells hold the drawn value reduced mod 256, so both
branches are instances of an arbitrary byte stream `r` reduced mod 256. -/

def keyLength : Nat := 32

def keyBytes (r : Nat → Nat) : List Nat := (List.range keyLength).map fun i => r i % 256

def generateSecureKey (r : Nat → Nat) : String := base64Encode (keyBytes r)

/- Roundtrip facts for the base64 codec. -/

lemma sextetsToBytes_bytesToSextets :
    ∀ l : List Nat, (∀ x ∈ l, x < 256) → sextetsToBytes (bytesToSextets l) = l := by
  intro l
  induction l using bytesToSextets.induct with
  | case1 a b c rest ih =>
    intro h
    simp only [bytesToSextets, sextetsToBytes, List.cons.injEq]
    have ha : a < 256 := h a (by simp)
    have hb : b < 256 := h b (by simp)
    have hc : c < 256 := h c (by simp)
    refine ⟨by omega, by omega, by omega, ih fun x hx => h x (by simp [hx])⟩
  | case2 a b =>
    intro h
    have ha : a < 256 := h a (by simp)
    have hb : b < 256 := h b (by simp)
    simp only [bytesToSextets, sextetsToBytes, List.cons.injEq]
    refine ⟨by omega, by omega, trivial⟩
  | case3 a =>
    intro h
    have ha : a < 256 := h a (by simp)
    simp only [bytesToSextets, sextetsToBytes, List.cons.injEq]
    refine ⟨by omega, trivial⟩
  | case4 => intro _; rfl

lemma bytesToSextets_lt :
    ∀ l : List Nat, (∀ x ∈ l, x < 256) → ∀ s ∈ bytesToSextets l, s < 64 := by
  intro l
  induction l using bytesToSextets.induct with
  | case1 a b c rest ih =>
    intro h s hs
    have ha : a < 256 := h a (by simp)
    have hb : b < 256 := h b (by simp)
    have hc : c < 256 := h c (by simp)
    simp only [bytesToSextets, List.mem_cons] at hs
    rcases hs with rfl | rfl | rfl | rfl | hs
    · omega
    · omega
    · omega
    · omega
    · exact ih (fun x hx => h x (by simp [hx])) s hs
  | case2 a b =>
    intro h s hs
    have ha : a < 256 := h a (by simp)
    have hb : b < 256 := h b (by simp)
    simp only [bytesToSextets, List.mem_cons] at hs
    rcases hs with rfl | rfl | rfl | hs
    · omega
    · omega
    · omega
    · simp at hs
  | case3 a =>
    intro h s hs
    have ha : a < 256 := h a (by simp)
    simp only [bytesToSextets, List.mem_cons] at hs
    rcases hs with rfl | rfl | hs
    · omega
    · omega
    · simp at hs
  | case4 => intro _ s hs; simp [bytesToSextets] at hs

lemma decChar_encChar : ∀ s, s < 64 → decChar (encChar s) = s := by decide

lemma encChar_ne_pad : ∀ s, s < 64 → (encChar s != '=') = true := by decide

lemma filter_map_encChar (l : List Nat) (h : ∀ s ∈ l, s < 64) :
    (l.map encChar).filter (fun c => c != '=') = l.map encChar := by
  induction l with
  | nil => rfl
  | cons a t ih =>
    have ha : a < 64 := h a (by simp)
    simp only [List.map_cons, List.filter_cons, encChar_ne_pad a ha]
    simp only [if_true]
    rw [ih fun s hs => h s (by simp [hs])]

lemma filter_padChars (k : Nat) : (padChars k).filter (fun c => c != '=') = [] := by
  unfold padChars
  split
  · decide
  · split
    · decide
    · rfl

lemma map_decChar_encChar (l : List Nat) (h : ∀ s ∈ l, s < 64) :
    (l.map encChar).map decChar = l := by
  induction l with
  | nil => rfl
  | cons a t ih =>
    have ha : a < 64 := h a (by simp)
    simp only [List.map_cons, decChar_encChar a ha]
    rw [ih fun s hs => h s (by simp [hs])]

lemma base64_roundtrip (l : List Nat) (h : ∀ x ∈ l, x < 256) :
    base64Decode (base64Encode l) = l := by
  unfold base64Encode base64Decode
  show sextetsToBytes
      ((((bytesToSextets l).map encChar ++ padChars l.length).filter
        (fun c => c != '=')).map decChar) = l
  rw [List.filter_append, filter_map_encChar _ (bytesToSextets_lt l h), filter_padChars,
    List.append_nil, map_decChar_encChar _ (bytesToSextets_lt l h),
    sextetsToBytes_bytesToSextets l h]

lemma keyBytes_lt (r : Nat → Nat) : ∀ x ∈ keyBytes r, x < 256 := by
  intro x hx
  simp only [keyBytes, List.mem_map] at hx
  obtain ⟨i, _, rfl⟩ := hx
  exact Nat.mod_lt _ (by norm_num)

lemma generateSecureKey_decode (r : Nat → Nat) :
    base64Decode (generateSecureKey r) = keyBytes r :=
  base64_roundtrip _ (keyBytes_lt r)

lemma generateSecureKey_inj {r r' : Nat → Nat} (h : keyBytes r ≠ keyBytes r') :
    generateSecureKey r ≠ generateSecureKey r' := by
  intro he
  apply h
  have := congrArg base64Decode he
  rwa [generateSecureKey_decode, generateSecureKey_decode] at this

/- Roundtrip facts for decimal rendering vs `parseInt`. -/

lemma digitsToNat_append_digit (cs : List Char) (c : Char) :
    digitsToNat (cs ++ [c]) = digitsToNat cs * 10 + (c.toNat - 48) := by
  unfold digitsToNat
  rw [List.foldl_append]
  rfl

lemma digitChar_toNat : ∀ d, d < 10 → (digitChar d).toNat = 48 + d := by decide

lemma digitChar_isDigit : ∀ d, d < 10 → (digitChar d).isDigit = true := by decide

lemma digitChar_not_space : ∀ d, d < 10 → jsIsSpace (digitChar d) = false := by decide

lemma digitChar_ne_minus : ∀ d, d < 10 → digitChar d ≠ '-' := by decide

lemma digitChar_ne_plus : ∀ d, d < 10 → digitChar d ≠ '+' := by decide

lemma natToCharsAux_ne_nil : ∀ fuel n, n < fuel → natToCharsAux fuel n ≠ [] := by
  intro fuel
  induction fuel with
  | zero => intro n h; omega
  | succ f _ =>
    intro n _
    unfold natToCharsAux
    by_cases h10 : n < 10
    · simp [h10]
    · simp [h10]

lemma natToCharsAux_mem :
    ∀ fuel n c, c ∈ natToCharsAux fuel n → ∃ d, d < 10 ∧ c = digitChar d := by
  intro fuel
  induction fuel with
  | zero => intro n c h; simp [natToCharsAux] at h
  | succ f ih =>
    intro n c h
    unfold natToCharsAux at h
    by_cases h10 : n < 10
    · simp [h10] at h
      exact ⟨n, h10, h⟩
    · simp only [h10, if_false, List.mem_append, List.mem_singleton] at h
      rcases h with h | h
      · exact ih _ _ h
      · exact ⟨n % 10, Nat.mod_lt _ (by norm_num), h⟩

lemma digitsToNat_natToCharsAux :
    ∀ fuel n, n < fuel → digitsToNat (natToCharsAux fuel n) = n := by
  intro fuel
  induction fuel with
  | zero => intro n h; omega
  | succ f ih =>
    intro n h
    unfold natToCharsAux
    by_cases h10 : n < 10
    · simp only [h10, if_true]
      show digitsToNat [digitChar n] = n
      unfold digitsToNat
      simp [digitChar_toNat n h10]
    · simp only [h10, if_false]
      rw [digitsToNat_append_digit, ih (n / 10) (by omega),
        digitChar_toNat (n % 10) (Nat.mod_lt _ (by norm_num))]
      omega

lemma takeWhile_isDigit_all (l : List Char) (h : ∀ c ∈ l, c.isDigit = true) :
    l.takeWhile Char.isDigit = l := by
  induction l with
  | nil => rfl
  | cons a t ih =>
    have ha : a.isDigit = true := h a (by simp)
    simp only [List.takeWhile_cons, ha, if_true]
    rw [ih fun c hc => h c (by simp [hc])]

lemma natToString_ne_empty (n : Nat) : natToString n ≠ "" := by
  unfold natToString
  intro h
  have := congrArg String.data h
  simp only at this
  exact natToCharsAux_ne_nil (n + 1) n (by omega) this

lemma parseIntJS_natToString (n : Nat) : parseIntJS (natToString n) = some (n : Int) := by
  unfold parseIntJS natToString
  have hmem := natToCharsAux_mem (n + 1) n
  have hdigs : ∀ c ∈ natToCharsAux (n + 1) n, c.isDigit = true := by
    intro c hc
    obtain ⟨d, hd, rfl⟩ := hmem c hc
    exact digitChar_isDigit d hd
  obtain ⟨c, rest, hcons⟩ :=
    List.exists_cons_of_ne_nil (natToCharsAux_ne_nil (n + 1) n (by omega))
  show (match (natToCharsAux (n + 1) n).dropWhile jsIsSpace with
    | [] => none
    | c :: rest =>
      if c = '-' then (parseDigits rest).map fun n => -(n : Int)
      else if c = '+' then (parseDigits rest).map fun n => (n : Int)
      else (parseDigits (c :: rest)).map fun n => (n : Int)) = some (n : Int)
  obtain ⟨d, hd, hcd⟩ := hmem c (by rw [hcons]; simp)
  have hdrop : (natToCharsAux (n + 1) n).dropWhile jsIsSpace = natToCharsAux (n + 1) n := by
    rw [hcons, List.dropWhile_cons, hcd, digitChar_not_space d hd]
    simp
  rw [hdrop, hcons]
  simp only [hcd, digitChar_ne_minus d hd, digitChar_ne_plus d hd, if_false]
  rw [← hcd, ← hcons]
  unfold parseDigits
  rw [takeWhile_isDigit_all _ hdigs]
  simp only [List.isEmpty_iff]
  rw [if_neg (natToCharsAux_ne_nil (n + 1) n (by omega))]
  rw [digitsToNat_natToCharsAux (n + 1) n (by omega)]
  simp

lemma jsNumToString_ofNat (n : Nat) : jsNumToString (some (n : Int)) = natToString n := by
  show (if (n : Int) < 0 then "-" ++ natToString (n : Int).natAbs
    else natToString (n : Int).natAbs) = natToString n
  rw [if_neg (by omega)]
  simp

lemma jsNumToString_succ (n : Nat) :
    jsNumToString (some ((n : Int) + 1)) = natToString (n + 1) := by
  have : ((n : Int) + 1) = ((n + 1 : Nat) : Int) := by push_cast; ring
  rw [this, jsNumToString_ofNat]

/- Environment classifier, `src/utils/platformCheck.ts`.  `Platform.OS`,
`__DEV__` and `Platform.constants.systemName` are the fields of `Env`. -/

structure Env where
  os : String
  dev : Bool
  systemName : String
deriving DecidableEq

def isIOSSimulator (e : Env) : Bool :=
  e.os == "ios" && e.dev && e.systemName == "iOS"

def isAndroidEmulator (e : Env) : Bool :=
  e.os == "android" && e.dev

def isRealDevice (e : Env) : Bool :=
  !isIOSSimulator e && !isAndroidEmulator e

def shouldUseSecureStore (e : Env) : Bool :=
  !e.dev || isRealDevice e

/- The secure store, restricted to the three entries the manager ever
addresses, keyed by the alias strings above. -/

structure Store where
  material : Option String
  creationDate : Option String
  version : Option String
deriving DecidableEq

/- One `SecureStore.setItemAsync` invocation, with the `keychainService`
option it carried (`none` when the call passed no options). -/
structure SetCall where
  key : String
  value : String
  keychainService : Option String
deriving DecidableEq

/- The world threaded through every operation: store contents, the audit
log of write calls, the fault oracle (call `i` of the process throws iff
`faults i`), the count of secure-store calls made so far, the clock, the
random source (stream `genIdx` feeds the next `generateSecureKey`), and
the runtime environment. -/
structure World where
  store : Store
  log : List SetCall
  faults : Nat → Bool
  callIdx : Nat
  now : Nat
  randStream : Nat → Nat → Nat
  genIdx : Nat
  env : Env

def Store.getField (s : Store) (key : String) : Option String :=
  if key = ENCRYPTION_KEY_ALIAS then s.material
  else if key = KEY_CREATION_DATE_ALIAS then s.creationDate
  else if key = KEY_VERSION_ALIAS then s.version
  else none

def Store.setField (s : Store) (key v : String) : Store :=
  if key = ENCRYPTION_KEY_ALIAS then { s with material := some v }
  else if key = KEY_CREATION_DATE_ALIAS then { s with creationDate := some v }
  else if key = KEY_VERSION_ALIAS then { s with version := some v }
  else s

def Store.delField (s : Store) (key : String) : Store :=
  if key = ENCRYPTION_KEY_ALIAS then { s with material := none }
  else if key = KEY_CREATION_DATE_ALIAS then { s with creationDate := none }
  else if key = KEY_VERSION_ALIAS then { s with version := none }
  else s

/- `SecureStore` primitives.  Each consumes one fault-oracle index; a
faulting call throws (`Except.error`) and leaves the store unchanged.
Write attempts are recorded in the log together with the service option
they carried. -/

def getItemAsync (w : World) (key : String) : Except Unit (Option String) × World :=
  ((if w.faults w.callIdx then Except.error () else Except.ok (w.store.getField key)),
   { w with callIdx := w.callIdx + 1 })

def setItemAsync (w : World) (key value : String) (service : Option String) :
    Except Unit Unit × World :=
  if w.faults w.callIdx then
    (Except.error (), { w with callIdx := w.callIdx + 1, log := w.log ++ [⟨key, value, service⟩] })
  else
    (Except.ok (),
      { w with
          callIdx := w.callIdx + 1
          log := w.log ++ [⟨key, value, service⟩]
          store := w.store.setField key value })

def deleteItemAsync (w : World) (key : String) : Except Unit Unit × World :=
  if w.faults w.callIdx then (Except.error (), { w with callIdx := w.callIdx + 1 })
  else (Except.ok (), { w with callIdx := w.callIdx + 1, store := w.store.delField key })

/- Fresh draw from the random source for one `generateSecureKey()` call. -/
def nextKey (w : World) : String × World :=
  (generateSecureKey (w.randStream w.genIdx), { w with genIdx := w.genIdx + 1 })

/- `storeKeySecurely` (keyManager.ts lines 38-57).  Only the key-material
write passes the options object `{ keychainService: 'dask-driver-keychain',
requireAuthentication: false }`; the two metadata writes pass no options.
The catch rethrows, so a failing write propagates as an error. -/
def storeKeySecurely (w : World) (key : String) (version : Option Int) :
    Except Unit Unit × World :=
  match setItemAsync w ENCRYPTION_KEY_ALIAS key (some KEYCHAIN_SERVICE) with
  | (Except.error _, w1) => (Except.error (), w1)
  | (Except.ok _, w1) =>
    match setItemAsync w1 KEY_CREATION_DATE_ALIAS (natToString w1.now) none with
    | (Except.error _, w2) => (Except.error (), w2)
    | (Except.ok _, w2) =>
      match setItemAsync w2 KEY_VERSION_ALIAS (jsNumToString version) none with
      | (Except.error _, w3) => (Except.error (), w3)
      | (Except.ok _, w3) => (Except.ok (), w3)

/- `getStoredKey` (lines 63-71): a read failure is caught and collapsed
to `null`. -/
def getStoredKey (w : World) : Option String × World :=
  match getItemAsync w ENCRYPTION_KEY_ALIAS with
  | (Except.error _, w1) => (none, w1)
  | (Except.ok k, w1) => (k, w1)

/- `getKeyVersion` (lines 77-85): `version ? parseInt(version, 10) : 0`,
read failures caught and collapsed to 0.  A stored non-empty string that
`parseInt` cannot parse yields `NaN` (`none`). -/
def getKeyVersion (w : World) : Option Int × World :=
  match getItemAsync w KEY_VERSION_ALIAS with
  | (Except.error _, w1) => (some 0, w1)
  | (Except.ok none, w1) => (some 0, w1)
  | (Except.ok (some s), w1) => (if s = "" then some 0 else parseIntJS s, w1)

/- `shouldRotateKey` (lines 91-113).  A falsy stored string (`null` or
`""`) means a new key is needed; an unparseable date makes `keyAge` `NaN`
and `NaN > interval` is false in JavaScript; a read failure is caught and
defaults to rotation needed. -/
def shouldRotateKey (w : World) : Bool × World :=
  match getItemAsync w KEY_CREATION_DATE_ALIAS with
  | (Except.error _, w1) => (true, w1)
  | (Except.ok none, w1) => (true, w1)
  | (Except.ok (some s), w1) =>
    if s = "" then (true, w1)
    else
      match parseIntJS s with
      | none => (false, w1)
      | some t => (decide ((w1.now : Int) - t > KEY_ROTATION_INTERVAL), w1)

/- `rotateKey` (lines 119-138): read the version, add one, generate a key,
persist; a failing write is caught and rethrown as an error. -/
def rotateKey (w : World) : Except Unit String × World :=
  match getKeyVersion w with
  | (currentVersion, w1) =>
    match nextKey w1 with
    | (newKey, w2) =>
      match storeKeySecurely w2 newKey (currentVersion.map (· + 1)) with
      | (Except.error _, w3) => (Except.error (), w3)
      | (Except.ok _, w3) => (Except.ok newKey, w3)

/- The generate-and-persist tail of the try-block (lines 173-178):
generate a new key, persist it at version 1, return it. -/
def createNewKey (w : World) : Except Unit String × World :=
  match nextKey w with
  | (newKey, w1) =>
    match storeKeySecurely w1 newKey (some 1) with
    | (Except.error _, w2) => (Except.error (), w2)
    | (Except.ok _, w2) => (Except.ok newKey, w2)

/- The try-block of `getOrCreateEncryptionKey` (lines 146-178).  The
`if (existingKey)` check at line 168 is JavaScript truthiness: a stored
empty string is falsy, so it falls through to the generate-and-persist
tail exactly like a `null` read. -/
def getOrCreateKeyTry (w : World) : Except Unit String × World :=
  if shouldUseSecureStore w.env = false then
    match nextKey w with
    | (k, w1) => (Except.ok k, w1)
  else
    match shouldRotateKey w with
    | (needsRotation, w1) =>
      if needsRotation then rotateKey w1
      else
        match getStoredKey w1 with
        | (some existingKey, w2) =>
          if existingKey = "" then createNewKey w2 else (Except.ok existingKey, w2)
        | (none, w2) => createNewKey w2

/- `getOrCreateEncryptionKey` (lines 145-187): the catch at the outermost
boundary converts any error into a freshly generated, non-persisted key. -/
def getOrCreateEncryptionKey (w : World) : String × World :=
  match getOrCreateKeyTry w with
  | (Except.ok k, w1) => (k, w1)
  | (Except.error _, w1) =>
    match nextKey w1 with
    | (k, w2) => (k, w2)

/- `forceKeyRotation` (lines 193-196): directly invokes `rotateKey`,
with no catch of its own. -/
def forceKeyRotation (w : World) : Except Unit String × World :=
  rotateKey w

/- `clearAllKeys` (lines 201-210): three sequential deletes inside a
single try; the catch swallows the failure. -/
def clearAllKeys (w : World) : Except Unit Unit × World :=
  match deleteItemAsync w ENCRYPTION_KEY_ALIAS with
  | (Except.error _, w1) => (Except.ok (), w1)
  | (Except.ok _, w1) =>
    match deleteItemAsync w1 KEY_CREATION_DATE_ALIAS with
    | (Except.error _, w2) => (Except.ok (), w2)
    | (Except.ok _, w2) =>
      match deleteItemAsync w2 KEY_VERSION_ALIAS with
      | (Except.error _, w3) => (Except.ok (), w3)
      | (Except.ok _, w3) => (Except.ok (), w3)

/- Field dispatch of the three aliases. -/

@[simp] lemma getField_material (s : Store) : s.getField ENCRYPTION_KEY_ALIAS = s.material := rfl

@[simp] lemma getField_date (s : Store) : s.getField KEY_CREATION_DATE_ALIAS = s.creationDate := rfl

@[simp] lemma getField_version (s : Store) : s.getField KEY_VERSION_ALIAS = s.version := rfl

@[simp] lemma setField_material (s : Store) (v : String) :
    s.setField ENCRYPTION_KEY_ALIAS v = { s with material := some v } := rfl

@[simp] lemma setField_date (s : Store) (v : String) :
    s.setField KEY_CREATION_DATE_ALIAS v = { s with creationDate := some v } := rfl

@[simp] lemma setField_version (s : Store) (v : String) :
    s.setField KEY_VERSION_ALIAS v = { s with version := some v } := rfl

@[simp] lemma delField_material (s : Store) :
    s.delField ENCRYPTION_KEY_ALIAS = { s with material := none } := rfl

@[simp] lemma delField_date (s : Store) :
    s.delField KEY_CREATION_DATE_ALIAS = { s with creationDate := none } := rfl

@[simp] lemma delField_version (s : Store) :
    s.delField KEY_VERSION_ALIAS = { s with version := none } := rfl

/- World-shape lemmas: the read-only operations only advance the call
counter. -/

lemma getKeyVersion_world (w : World) :
    (getKeyVersion w).2 = { w with callIdx := w.callIdx + 1 } := by
  unfold getKeyVersion getItemAsync
  by_cases h : w.faults w.callIdx
  · simp [h]
  · simp only [h, Bool.false_eq_true, if_false]
    cases w.store.getField KEY_VERSION_ALIAS <;> simp

lemma getStoredKey_world (w : World) :
    (getStoredKey w).2 = { w with callIdx := w.callIdx + 1 } := by
  unfold getStoredKey getItemAsync
  by_cases h : w.faults w.callIdx
  · simp [h]
  · simp [h]

lemma shouldRotateKey_world (w : World) :
    (shouldRotateKey w).2 = { w with callIdx := w.callIdx + 1 } := by
  unfold shouldRotateKey getItemAsync
  by_cases h : w.faults w.callIdx
  · simp [h]
  · simp only [h, Bool.false_eq_true, if_false]
    cases hv : w.store.getField KEY_CREATION_DATE_ALIAS with
    | none => simp
    | some s =>
      by_cases hs : s = ""
      · simp [hs]
      · cases hp : parseIntJS s <;> simp [hs, hp]

lemma nextKey_world (w : World) : (nextKey w).2 = { w with genIdx := w.genIdx + 1 } := rfl

lemma nextKey_val (w : World) : (nextKey w).1 = generateSecureKey (w.randStream w.genIdx) := rfl

/- Value lemmas for the reads. -/

lemma getKeyVersion_stored (w : World) (v : Nat)
    (hf : w.faults w.callIdx = false) (hv : w.store.version = some (natToString v)) :
    (getKeyVersion w).1 = some (v : Int) := by
  unfold getKeyVersion getItemAsync
  simp [hf, hv, natToString_ne_empty v, parseIntJS_natToString v]

lemma getKeyVersion_missing (w : World)
    (hf : w.faults w.callIdx = false) (hv : w.store.version = none) :
    (getKeyVersion w).1 = some 0 := by
  unfold getKeyVersion getItemAsync
  simp [hf, hv]

lemma getStoredKey_val (w : World) (hf : w.faults w.callIdx = false) :
    (getStoredKey w).1 = w.store.material := by
  unfold getStoredKey getItemAsync
  simp [hf]

lemma shouldRotateKey_fault (w : World) (hf : w.faults w.callIdx = true) :
    (shouldRotateKey w).1 = true := by
  unfold shouldRotateKey getItemAsync
  simp [hf]

lemma shouldRotateKey_missing (w : World)
    (hf : w.faults w.callIdx = false) (hd : w.store.creationDate = none) :
    (shouldRotateKey w).1 = true := by
  unfold shouldRotateKey getItemAsync
  simp [hf, hd]

lemma shouldRotateKey_parsed (w : World) (s : String) (t : Int)
    (hf : w.faults w.callIdx = false) (hd : w.store.creationDate = some s)
    (hp : parseIntJS s = some t) :
    (shouldRotateKey w).1 = decide ((w.now : Int) - t > KEY_ROTATION_INTERVAL) := by
  have hs : s ≠ "" := by
    rintro rfl
    rw [show parseIntJS "" = none from rfl] at hp
    simp at hp
  unfold shouldRotateKey getItemAsync
  simp [hf, hd, hs, hp]

lemma shouldRotateKey_nan (w : World) (s : String)
    (hf : w.faults w.callIdx = false) (hd : w.store.creationDate = some s)
    (hs : s ≠ "") (hp : parseIntJS s = none) :
    (shouldRotateKey w).1 = false := by
  unfold shouldRotateKey getItemAsync
  simp [hf, hd, hs, hp]

/- Effect of a fully successful `storeKeySecurely`. -/

lemma storeKeySecurely_noFault (w : World) (key : String) (version : Option Int)
    (hf1 : w.faults w.callIdx = false) (hf2 : w.faults (w.callIdx + 1) = false)
    (hf3 : w.faults (w.callIdx + 2) = false) :
    storeKeySecurely w key version =
      (Except.ok (),
        { w with
            callIdx := w.callIdx + 3
            log := w.log ++
              [⟨ENCRYPTION_KEY_ALIAS, key, some KEYCHAIN_SERVICE⟩,
               ⟨KEY_CREATION_DATE_ALIAS, natToString w.now, none⟩,
               ⟨KEY_VERSION_ALIAS, jsNumToString version, none⟩]
            store := ⟨some key, some (natToString w.now), some (jsNumToString version)⟩ }) := by
  unfold storeKeySecurely setItemAsync
  simp [hf1, hf2, hf3, List.append_assoc]

/- A write failing at any of its three underlying set calls makes
`storeKeySecurely` throw. -/

lemma storeKeySecurely_fails (w : World) (k : String) (v : Option Int)
    (h : w.faults w.callIdx = true ∨ w.faults (w.callIdx + 1) = true ∨
      w.faults (w.callIdx + 2) = true) :
    (storeKeySecurely w k v).1 = Except.error () := by
  by_cases h1 : w.faults w.callIdx
  · unfold storeKeySecurely setItemAsync
    simp [h1]
  · by_cases h2 : w.faults (w.callIdx + 1)
    · unfold storeKeySecurely setItemAsync
      simp [h1, h2]
    · have h3 : w.faults (w.callIdx + 2) = true := by
        rcases h with h | h | h
        · exact absurd h h1
        · exact absurd h h2
        · exact h
      unfold storeKeySecurely setItemAsync
      simp [h1, h2, h3]

/- Effect of a fully successful `rotateKey` on a store whose version field
holds the decimal rendering of `v`. -/

lemma rotateKey_stored_noFault (w : World) (v : Nat)
    (hv : w.store.version = some (natToString v))
    (hf0 : w.faults w.callIdx = false) (hf1 : w.faults (w.callIdx + 1) = false)
    (hf2 : w.faults (w.callIdx + 2) = false) (hf3 : w.faults (w.callIdx + 3) = false) :
    rotateKey w =
      (Except.ok (generateSecureKey (w.randStream w.genIdx)),
        { w with
            callIdx := w.callIdx + 4
            genIdx := w.genIdx + 1
            log := w.log ++
              [⟨ENCRYPTION_KEY_ALIAS, generateSecureKey (w.randStream w.genIdx),
                 some KEYCHAIN_SERVICE⟩,
               ⟨KEY_CREATION_DATE_ALIAS, natToString w.now, none⟩,
               ⟨KEY_VERSION_ALIAS, natToString (v + 1), none⟩]
            store := ⟨some (generateSecureKey (w.randStream w.genIdx)),
                      some (natToString w.now), some (natToString (v + 1))⟩ }) := by
  have hg : getKeyVersion w = (some (v : Int), { w with callIdx := w.callIdx + 1 }) := by
    rw [← getKeyVersion_stored w v hf0 hv, ← getKeyVersion_world w]
  have hst := storeKeySecurely_noFault
    { w with callIdx := w.callIdx + 1, genIdx := w.genIdx + 1 }
    (generateSecureKey (w.randStream w.genIdx)) ((some (v : Int)).map (· + 1))
    (by simp [hf1]) (by simp [hf2]) (by simp [hf3])
  unfold rotateKey
  simp only [hg, nextKey]
  rw [hst]
  simp [List.append_assoc, jsNumToString_succ]

/- Effect of a fully successful `rotateKey` on a store with no version
entry: the stored version becomes `"1"`. -/

lemma rotateKey_missing_noFault (w : World)
    (hv : w.store.version = none)
    (hf0 : w.faults w.callIdx = false) (hf1 : w.faults (w.callIdx + 1) = false)
    (hf2 : w.faults (w.callIdx + 2) = false) (hf3 : w.faults (w.callIdx + 3) = false) :
    rotateKey w =
      (Except.ok (generateSecureKey (w.randStream w.genIdx)),
        { w with
            callIdx := w.callIdx + 4
            genIdx := w.genIdx + 1
            log := w.log ++
              [⟨ENCRYPTION_KEY_ALIAS, generateSecureKey (w.randStream w.genIdx),
                 some KEYCHAIN_SERVICE⟩,
               ⟨KEY_CREATION_DATE_ALIAS, natToString w.now, none⟩,
               ⟨KEY_VERSION_ALIAS, natToString 1, none⟩]
            store := ⟨some (generateSecureKey (w.randStream w.genIdx)),
                      some (natToString w.now), some (natToString 1)⟩ }) := by
  have hg : getKeyVersion w = (some 0, { w with callIdx := w.callIdx + 1 }) := by
    rw [← getKeyVersion_missing w hf0 hv, ← getKeyVersion_world w]
  have hst := storeKeySecurely_noFault
    { w with callIdx := w.callIdx + 1, genIdx := w.genIdx + 1 }
    (generateSecureKey (w.randStream w.genIdx)) ((some (0 : Int)).map (· + 1))
    (by simp [hf1]) (by simp [hf2]) (by simp [hf3])
  unfold rotateKey
  simp only [hg, nextKey]
  rw [hst]
  have h1 : jsNumToString (some 1) = natToString 1 := by decide
  simp [List.append_assoc, h1]

/- `getOrCreateEncryptionKey` from an empty store in a trusted
environment with no faults: the rotation path stores version `"1"`. -/

lemma getOrCreate_empty (w : World)
    (hs : w.store = ⟨none, none, none⟩) (hf : w.faults = fun _ => false)
    (he : shouldUseSecureStore w.env = true) :
    getOrCreateEncryptionKey w =
      (generateSecureKey (w.randStream w.genIdx),
        { w with
            callIdx := w.callIdx + 1 + 4
            genIdx := w.genIdx + 1
            log := w.log ++
              [⟨ENCRYPTION_KEY_ALIAS, generateSecureKey (w.randStream w.genIdx),
                 some KEYCHAIN_SERVICE⟩,
               ⟨KEY_CREATION_DATE_ALIAS, natToString w.now, none⟩,
               ⟨KEY_VERSION_ALIAS, natToString 1, none⟩]
            store := ⟨some (generateSecureKey (w.randStream w.genIdx)),
                      some (natToString w.now), some (natToString 1)⟩ }) := by
  have hf0 : ∀ i, w.faults i = false := fun i => by rw [hf]
  have hsr : shouldRotateKey w = (true, { w with callIdx := w.callIdx + 1 }) := by
    rw [← shouldRotateKey_missing w (hf0 _) (by rw [hs]), ← shouldRotateKey_world w]
  have hrot := rotateKey_missing_noFault { w with callIdx := w.callIdx + 1 }
    (by simp [hs]) (by simp [hf0]) (by simp [hf0]) (by simp [hf0]) (by simp [hf0])
  unfold getOrCreateEncryptionKey getOrCreateKeyTry
  simp only [he, Bool.true_eq_false, if_false, hsr, if_true]
  rw [hrot]

/- `getOrCreateEncryptionKey` in a trusted environment holding a
non-stale, parseable creation date and existing non-empty (JS truthy)
material, no faults: returns the stored material and writes nothing. -/

lemma getOrCreate_existing (w : World) (k s : String) (t : Int)
    (he : shouldUseSecureStore w.env = true) (hf : w.faults = fun _ => false)
    (hd : w.store.creationDate = some s) (hp : parseIntJS s = some t)
    (hage : ¬((w.now : Int) - t > KEY_ROTATION_INTERVAL))
    (hm : w.store.material = some k) (hk : k ≠ "") :
    getOrCreateEncryptionKey w = (k, { w with callIdx := w.callIdx + 1 + 1 }) := by
  have hf0 : ∀ i, w.faults i = false := fun i => by rw [hf]
  have hval : (shouldRotateKey w).1 = false := by
    rw [shouldRotateKey_parsed w s t (hf0 _) hd hp]
    exact decide_eq_false hage
  have hsr : shouldRotateKey w = (false, { w with callIdx := w.callIdx + 1 }) := by
    rw [← hval, ← shouldRotateKey_world w]
  have hgk1 : (getStoredKey { w with callIdx := w.callIdx + 1 }).1 = some k := by
    rw [getStoredKey_val _ (by simp [hf0])]
    simpa using hm
  have hgk2 : (getStoredKey { w with callIdx := w.callIdx + 1 }).2 =
      { w with callIdx := w.callIdx + 1 + 1 } := by
    rw [getStoredKey_world]
  have hpair : getStoredKey { w with callIdx := w.callIdx + 1 } =
      (some k, { w with callIdx := w.callIdx + 1 + 1 }) := by
    rw [← hgk1, ← hgk2]
  unfold getOrCreateEncryptionKey getOrCreateKeyTry
  simp only [he, Bool.true_eq_false, Bool.false_eq_true, if_false, hsr, hpair, hk]

/- Concrete runtime environments used by witnesses: a production build on
a real device (trusted) and a development build on an iOS simulator
(untrusted). -/

def trustedEnv : Env := ⟨"ios", false, "iOS"⟩

def simulatorEnv : Env := ⟨"ios", true, "iOS"⟩

/-- C1: `getOrCreateEncryptionKey` never raises to its caller: for every
world, either its try-block succeeds and that key and world are returned
unchanged, or the try-block throws and the call still returns a freshly
generated key drawn from the next random stream, in a world that differs
from the failure world only in the random-draw counter — in particular
the fallback key is not persisted (the store is untouched by the
fallback). -/
theorem getOrCreateEncryptionKey_never_throws (w : World) :
    (∃ k w1, getOrCreateKeyTry w = (Except.ok k, w1) ∧ getOrCreateEncryptionKey w = (k, w1))
  ∨ (∃ w1, getOrCreateKeyTry w = (Except.error (), w1)
      ∧ getOrCreateEncryptionKey w =
          (generateSecureKey (w1.randStream w1.genIdx), { w1 with genIdx := w1.genIdx + 1 })) := by
  unfold getOrCreateEncryptionKey
  rcases hg : getOrCreateKeyTry w with ⟨r, w1⟩
  cases r with
  | ok k =>
    left
    exact ⟨k, w1, rfl, rfl⟩
  | error e =>
    right
    cases e
    exact ⟨w1, rfl, rfl⟩

/-- C2: `shouldRotateKey` returns true when the read of the creation date
faults, true when the stored field is missing, and — for a stored string
parsing to `t` — true exactly when `now - t` exceeds the 7-day interval;
for a stored non-empty unparseable string the `NaN` age comparison yields
false; in particular a key created 8 days ago rotates and a key created
1 day ago does not. -/
theorem shouldRotateKey_spec (w : World) :
    (w.faults w.callIdx = true → (shouldRotateKey w).1 = true)
  ∧ (w.faults w.callIdx = false → w.store.creationDate = none → (shouldRotateKey w).1 = true)
  ∧ (∀ s t, w.faults w.callIdx = false → w.store.creationDate = some s →
      parseIntJS s = some t →
      ((shouldRotateKey w).1 = true ↔ (w.now : Int) - t > 7 * 24 * 60 * 60 * 1000))
  ∧ (∀ s, w.faults w.callIdx = false → w.store.creationDate = some s → s ≠ "" →
      parseIntJS s = none → (shouldRotateKey w).1 = false)
  ∧ (∀ t : Nat, w.faults w.callIdx = false →
      w.store.creationDate = some (natToString t) →
      w.now = t + 8 * 24 * 60 * 60 * 1000 → (shouldRotateKey w).1 = true)
  ∧ (∀ t : Nat, w.faults w.callIdx = false →
      w.store.creationDate = some (natToString t) →
      w.now = t + 1 * 24 * 60 * 60 * 1000 → (shouldRotateKey w).1 = false) := by
  refine ⟨?_, ?_, ?_, ?_, ?_, ?_⟩
  · intro hf
    exact shouldRotateKey_fault w hf
  · intro hf hd
    exact shouldRotateKey_missing w hf hd
  · intro s t hf hd hp
    rw [shouldRotateKey_parsed w s t hf hd hp]
    simp [KEY_ROTATION_INTERVAL]
  · intro s hf hd hs hp
    exact shouldRotateKey_nan w s hf hd hs hp
  · intro t hf hd hn
    rw [shouldRotateKey_parsed w (natToString t) (t : Int) hf hd (parseIntJS_natToString t)]
    apply decide_eq_true
    rw [hn, KEY_ROTATION_INTERVAL]
    push_cast
    omega
  · intro t hf hd hn
    rw [shouldRotateKey_parsed w (natToString t) (t : Int) hf hd (parseIntJS_natToString t)]
    apply decide_eq_false
    rw [hn, KEY_ROTATION_INTERVAL]
    push_cast
    omega

def c2W8 : World :=
  { store := ⟨none, some (natToString 0), none⟩, log := [], faults := fun _ => false,
    callIdx := 0, now := 8 * 24 * 60 * 60 * 1000, randStream := fun _ _ => 0,
    genIdx := 0, env := trustedEnv }

def c2W1 : World :=
  { store := ⟨none, some (natToString 0), none⟩, log := [], faults := fun _ => false,
    callIdx := 0, now := 1 * 24 * 60 * 60 * 1000, randStream := fun _ _ => 0,
    genIdx := 0, env := trustedEnv }

/-- C2 witness: a key created 8 days ago needs rotation, one created 1 day
ago does not. -/
theorem shouldRotateKey_spec_witness :
    (shouldRotateKey c2W8).1 = true ∧ (shouldRotateKey c2W1).1 = false :=
  ⟨(shouldRotateKey_spec c2W8).2.2.2.2.1 0 rfl rfl (by decide),
   (shouldRotateKey_spec c2W1).2.2.2.2.2 0 rfl rfl (by decide)⟩

/-- C6: every generated key — whichever random source filled the
`Uint8Array` — decodes from its base64 text representation to exactly 32
bytes of key material. -/
theorem generateSecureKey_decodes_to_32_bytes (r : Nat → Nat) :
    (base64Decode (generateSecureKey r)).length = 32 := by
  rw [generateSecureKey_decode]
  simp [keyBytes, keyLength]

def c7W : World :=
  { store := ⟨none, none, some "abc"⟩, log := [], faults := fun _ => false,
    callIdx := 0, now := 0, randStream := fun _ _ => 0, genIdx := 0, env := trustedEnv }

def c7Wm : World :=
  { store := ⟨none, none, none⟩, log := [], faults := fun _ => false,
    callIdx := 0, now := 0, randStream := fun _ _ => 0, genIdx := 0, env := trustedEnv }

/-- C7 counterexample: with the non-numeric string `"abc"` stored in the
version field and no read failure, `getKeyVersion` returns `NaN`
(modelled `none`), not the integer 0 the claim requires. -/
theorem getKeyVersion_unparseable_is_nan :
    (getKeyVersion c7W).1 = none ∧ (getKeyVersion c7W).1 ≠ some 0 := by decide

/-- C7 amended: `getKeyVersion` never throws and returns 0 when the read
fails, when the field is missing and when it holds the empty string; for
any other stored string it returns JavaScript `parseInt(s, 10)` — which is
`NaN` (`none`), not 0, when the string has no leading integer. -/
theorem getKeyVersion_spec (w : World) :
    (w.faults w.callIdx = true → (getKeyVersion w).1 = some 0)
  ∧ (w.faults w.callIdx = false → w.store.version = none → (getKeyVersion w).1 = some 0)
  ∧ (w.faults w.callIdx = false → w.store.version = some "" → (getKeyVersion w).1 = some 0)
  ∧ (∀ s, w.faults w.callIdx = false → w.store.version = some s → s ≠ "" →
      (getKeyVersion w).1 = parseIntJS s) := by
  refine ⟨?_, ?_, ?_, ?_⟩
  · intro hf
    unfold getKeyVersion getItemAsync
    simp [hf]
  · intro hf hv
    unfold getKeyVersion getItemAsync
    simp [hf, hv]
  · intro hf hv
    unfold getKeyVersion getItemAsync
    simp [hf, hv]
  · intro s hf hv hs
    unfold getKeyVersion getItemAsync
    simp [hf, hv, hs]

/-- C7 witness: a missing version field reads as 0; the stored string
`"abc"` reads as `parseInt("abc", 10)`. -/
theorem getKeyVersion_spec_witness :
    (getKeyVersion c7Wm).1 = some 0 ∧ (getKeyVersion c7W).1 = parseIntJS "abc" :=
  ⟨(getKeyVersion_spec c7Wm).2.1 rfl rfl,
   (getKeyVersion_spec c7W).2.2.2 "abc" rfl rfl (by decide)⟩

instance : DecidableEq (Except Unit Unit) := fun a b =>
  match a, b with
  | Except.ok (), Except.ok () => isTrue rfl
  | Except.error (), Except.error () => isTrue rfl
  | Except.ok (), Except.error () => isFalse (fun h => Except.noConfusion h)
  | Except.error (), Except.ok () => isFalse (fun h => Except.noConfusion h)

def c8W : World :=
  { store := ⟨some "K", some "D", some "V"⟩, log := [], faults := fun i => i == 0,
    callIdx := 0, now := 0, randStream := fun _ _ => 0, genIdx := 0, env := trustedEnv }

def c8Wok : World :=
  { store := ⟨some "K", some "D", some "V"⟩, log := [], faults := fun _ => false,
    callIdx := 0, now := 0, randStream := fun _ _ => 0, genIdx := 0, env := trustedEnv }

/-- C8 counterexample: when the first delete (the key material) fails,
`clearAllKeys` still returns successfully, but the creation-date and
version deletions are never attempted: only one secure-store call is
made and both fields survive — refuting the claimed independence of the
three deletions. -/
theorem clearAllKeys_not_independent :
    (clearAllKeys c8W).1 = Except.ok ()
  ∧ (clearAllKeys c8W).2.store.creationDate = some "D"
  ∧ (clearAllKeys c8W).2.store.version = some "V"
  ∧ (clearAllKeys c8W).2.callIdx = 1 := by decide

/-- C8 amended: `clearAllKeys` never raises to its caller; with no
failing delete it removes all three fields, but the three deletions run
sequentially inside one try block, so a failure at the first delete
leaves the store untouched after a single call. -/
theorem clearAllKeys_spec (w : World) :
    (clearAllKeys w).1 = Except.ok ()
  ∧ (w.faults = (fun _ => false) → (clearAllKeys w).2.store = ⟨none, none, none⟩)
  ∧ (w.faults w.callIdx = true →
      (clearAllKeys w).2.store = w.store ∧ (clearAllKeys w).2.callIdx = w.callIdx + 1) := by
  refine ⟨?_, ?_, ?_⟩
  · unfold clearAllKeys deleteItemAsync
    by_cases h0 : w.faults w.callIdx <;> by_cases h1 : w.faults (w.callIdx + 1) <;>
      by_cases h2 : w.faults (w.callIdx + 2) <;> simp [h0, h1, h2]
  · intro hf
    have hf0 : ∀ i, w.faults i = false := fun i => by rw [hf]
    unfold clearAllKeys deleteItemAsync
    simp [hf0]
  · intro h
    unfold clearAllKeys deleteItemAsync
    simp [h]

/-- C8 witness: with no failing delete every field is removed; with the
first delete failing the store survives unchanged. -/
theorem clearAllKeys_spec_witness :
    (clearAllKeys c8Wok).2.store = ⟨none, none, none⟩
  ∧ (clearAllKeys c8W).2.store = c8W.store :=
  ⟨(clearAllKeys_spec c8Wok).2.1 rfl, ((clearAllKeys_spec c8W).2.2 rfl).1⟩

def c9W : World :=
  { store := ⟨none, none, none⟩, log := [], faults := fun _ => false,
    callIdx := 0, now := 0, randStream := fun _ _ => 0, genIdx := 0, env := trustedEnv }

/-- C9 counterexample: in one `storeKeySecurely` invocation only the
key-material write carries the keychain service identifier; the
creation-date and version writes pass no options at all, so not every
write is made under the fixed service identifier. -/
theorem storeKeySecurely_metadata_without_service :
    ((storeKeySecurely c9W "K" (some 5)).2.log.map fun c => c.keychainService) =
      [some KEYCHAIN_SERVICE, none, none]
  ∧ ¬(∀ c ∈ (storeKeySecurely c9W "K" (some 5)).2.log,
        c.keychainService = some KEYCHAIN_SERVICE) := by decide

/-- C9 amended: a successful `storeKeySecurely` performs exactly three
writes, of which only the key-material write carries the fixed
`dask-driver-keychain` service identifier; the creation-timestamp and
version writes carry no service option (platform default namespace). -/
theorem storeKeySecurely_service_identifiers (w : World) (k : String) (v : Option Int)
    (hf1 : w.faults w.callIdx = false) (hf2 : w.faults (w.callIdx + 1) = false)
    (hf3 : w.faults (w.callIdx + 2) = false) :
    (storeKeySecurely w k v).2.log = w.log ++
      [⟨ENCRYPTION_KEY_ALIAS, k, some KEYCHAIN_SERVICE⟩,
       ⟨KEY_CREATION_DATE_ALIAS, natToString w.now, none⟩,
       ⟨KEY_VERSION_ALIAS, jsNumToString v, none⟩] := by
  rw [storeKeySecurely_noFault w k v hf1 hf2 hf3]

/-- C9 witness: the write log of a concrete successful store. -/
theorem storeKeySecurely_service_identifiers_witness :
    (storeKeySecurely c9W "K" (some 5)).2.log =
      [⟨ENCRYPTION_KEY_ALIAS, "K", some KEYCHAIN_SERVICE⟩,
       ⟨KEY_CREATION_DATE_ALIAS, natToString 0, none⟩,
       ⟨KEY_VERSION_ALIAS, jsNumToString (some 5), none⟩] := by
  have h := storeKeySecurely_service_identifiers c9W "K" (some 5) rfl rfl rfl
  simpa [c9W] using h

/-- C10: when any of the three underlying writes of the rotation fails,
`forceKeyRotation` propagates the failure to its caller as an error and
returns no key — it has no ephemeral-key fallback of its own. -/
theorem forceKeyRotation_propagates_write_failure (w : World)
    (h : w.faults (w.callIdx + 1) = true ∨ w.faults (w.callIdx + 2) = true ∨
      w.faults (w.callIdx + 3) = true) :
    (forceKeyRotation w).1 = Except.error () := by
  unfold forceKeyRotation rotateKey
  rcases hg : getKeyVersion w with ⟨cv, w1⟩
  have hw1 : w1 = { w with callIdx := w.callIdx + 1 } := by
    have h2 := getKeyVersion_world w
    rw [hg] at h2
    exact h2
  subst hw1
  simp only [nextKey]
  have hfail := storeKeySecurely_fails
    { w with callIdx := w.callIdx + 1, genIdx := w.genIdx + 1 }
    (generateSecureKey (w.randStream w.genIdx)) (cv.map (· + 1))
    (by rcases h with h | h | h
        · exact Or.inl h
        · exact Or.inr (Or.inl h)
        · exact Or.inr (Or.inr h))
  rcases hst : storeKeySecurely { w with callIdx := w.callIdx + 1, genIdx := w.genIdx + 1 }
      (generateSecureKey (w.randStream w.genIdx)) (cv.map (· + 1)) with ⟨res, w3⟩
  rw [hst] at hfail
  cases res with
  | error e => rfl
  | ok a => simp at hfail

def c10W : World :=
  { store := ⟨none, none, none⟩, log := [], faults := fun _ => true,
    callIdx := 0, now := 0, randStream := fun _ _ => 0, genIdx := 0, env := trustedEnv }

/-- C10 witness: with every store call failing, a forced rotation
surfaces the error. -/
theorem forceKeyRotation_propagates_write_failure_witness :
    (forceKeyRotation c10W).1 = Except.error () :=
  forceKeyRotation_propagates_write_failure c10W (Or.inl rfl)

/- Iterated rotation. -/
def afterRotations (w : World) : Nat → World
  | 0 => w
  | i + 1 => (rotateKey (afterRotations w i)).2

/-- C3: from an empty store in a trusted environment with no store
faults, the creating `getOrCreateEncryptionKey` call stores version
`"1"`, and after `i ≤ N` further rotations the stored version is the
decimal rendering of `i + 1` — each rotation succeeding and storing
exactly the previously stored version plus one, so the sequence of
stored versions is `1, 2, ..., N + 1`. -/
theorem version_sequence (w : World) (N : Nat)
    (hs : w.store = ⟨none, none, none⟩) (hf : w.faults = fun _ => false)
    (he : shouldUseSecureStore w.env = true) :
    ∀ i ≤ N,
      (afterRotations (getOrCreateEncryptionKey w).2 i).store.version
        = some (natToString (i + 1))
      ∧ ∃ k, (rotateKey (afterRotations (getOrCreateEncryptionKey w).2 i)).1
          = Except.ok k := by
  have hbase := getOrCreate_empty w hs hf he
  have hinv : ∀ i,
      (afterRotations (getOrCreateEncryptionKey w).2 i).store.version
        = some (natToString (i + 1))
      ∧ (afterRotations (getOrCreateEncryptionKey w).2 i).faults = fun _ => false := by
    intro i
    induction i with
    | zero =>
      constructor <;> simp [afterRotations, hbase, hf]
    | succ n ih =>
      obtain ⟨hv, hfl⟩ := ih
      have hf0 : ∀ j, (afterRotations (getOrCreateEncryptionKey w).2 n).faults j = false :=
        fun j => by rw [hfl]
      have hrot := rotateKey_stored_noFault (afterRotations (getOrCreateEncryptionKey w).2 n)
        (n + 1) hv (hf0 _) (hf0 _) (hf0 _) (hf0 _)
      constructor
      · show (rotateKey (afterRotations (getOrCreateEncryptionKey w).2 n)).2.store.version = _
        rw [hrot]
      · show (rotateKey (afterRotations (getOrCreateEncryptionKey w).2 n)).2.faults = _
        rw [hrot]
        exact hfl
  intro i _
  obtain ⟨hv, hfl⟩ := hinv i
  have hf0 : ∀ j, (afterRotations (getOrCreateEncryptionKey w).2 i).faults j = false :=
    fun j => by rw [hfl]
  have hrot := rotateKey_stored_noFault (afterRotations (getOrCreateEncryptionKey w).2 i)
    (i + 1) hv (hf0 _) (hf0 _) (hf0 _) (hf0 _)
  refine ⟨hv, generateSecureKey ((afterRotations (getOrCreateEncryptionKey w).2 i).randStream
    (afterRotations (getOrCreateEncryptionKey w).2 i).genIdx), ?_⟩
  rw [hrot]

def c3W : World :=
  { store := ⟨none, none, none⟩, log := [], faults := fun _ => false,
    callIdx := 0, now := 0, randStream := fun g _ => g, genIdx := 0, env := trustedEnv }

/-- C3 witness: after the creating call and two rotations the stored
version is `"3"`, and the next rotation still succeeds. -/
theorem version_sequence_witness :
    (afterRotations (getOrCreateEncryptionKey c3W).2 2).store.version
      = some (natToString 3)
    ∧ ∃ k, (rotateKey (afterRotations (getOrCreateEncryptionKey c3W).2 2)).1
        = Except.ok k :=
  version_sequence c3W 2 rfl rfl rfl 2 (le_refl 2)

def c4W0 : World :=
  { store := ⟨none, none, none⟩, log := [], faults := fun i => i == 10,
    callIdx := 0, now := 0, randStream := fun g _ => g, genIdx := 0, env := trustedEnv }

def c4W2 : World := (forceKeyRotation (getOrCreateEncryptionKey c4W0).2).2

def c4W3 : World := (getOrCreateEncryptionKey c4W2).2

/-- C4 counterexample: starting empty, `getOrCreateEncryptionKey` stores
version `"1"` and a forced rotation stores `"2"`; then a
`getOrCreateEncryptionKey` call during which only the read of the key
material fails (the version field is never cleared, nothing is deleted)
stores version `"1"` again — a stored version less than or equal to a
previously stored one. -/
theorem version_resets_without_clear :
    c4W2.store.version = some "2" ∧ c4W3.store.version = some "1" := by decide

def c4Wa : World :=
  { store := ⟨none, none, some (natToString 4)⟩, log := [], faults := fun _ => false,
    callIdx := 0, now := 0, randStream := fun _ _ => 0, genIdx := 0, env := trustedEnv }

/-- C4 amended: across rotations the stored version does strictly
increase — a successful rotation over a stored version `v` stores exactly
`v + 1`; the claimed global invariant fails only because the
`getOrCreateEncryptionKey` fallback path (fresh metadata but unreadable
material) stores version 1 without any clear having occurred. -/
theorem rotation_version_strictly_increases (w : World) (v : Nat)
    (hv : w.store.version = some (natToString v)) (hf : w.faults = fun _ => false) :
    ∃ k, (rotateKey w).1 = Except.ok k
      ∧ (rotateKey w).2.store.version = some (natToString (v + 1)) ∧ v < v + 1 := by
  have hf0 : ∀ i, w.faults i = false := fun i => by rw [hf]
  have hrot := rotateKey_stored_noFault w v hv (hf0 _) (hf0 _) (hf0 _) (hf0 _)
  exact ⟨generateSecureKey (w.randStream w.genIdx), by rw [hrot], by rw [hrot],
    Nat.lt_succ_self v⟩

/-- C4 witness: rotating over stored version `"4"` stores `"5"`. -/
theorem rotation_version_strictly_increases_witness :
    ∃ k, (rotateKey c4Wa).1 = Except.ok k
      ∧ (rotateKey c4Wa).2.store.version = some (natToString 5) ∧ 4 < 5 :=
  rotation_version_strictly_increases c4Wa 4 rfl rfl

/-- C5: in an untrusted environment `getOrCreateEncryptionKey` neither
reads nor writes the secure store (store contents, call counter and
write log unchanged) and two consecutive calls with distinct random
draws yield different key material; in a trusted environment holding
existing non-empty (JS-truthy) material under a fresh, parseable
creation date and with no faults, two consecutive calls both return the
stored material. -/
theorem ephemeral_untrusted_persistent_trusted (w : World) :
    (shouldUseSecureStore w.env = false →
      (getOrCreateEncryptionKey w).2.store = w.store
      ∧ (getOrCreateEncryptionKey w).2.callIdx = w.callIdx
      ∧ (getOrCreateEncryptionKey w).2.log = w.log
      ∧ (keyBytes (w.randStream w.genIdx) ≠ keyBytes (w.randStream (w.genIdx + 1)) →
          (getOrCreateEncryptionKey w).1 ≠
            (getOrCreateEncryptionKey (getOrCreateEncryptionKey w).2).1))
  ∧ (∀ k s t, shouldUseSecureStore w.env = true → w.faults = (fun _ => false) →
      w.store.material = some k → k ≠ "" → w.store.creationDate = some s →
      parseIntJS s = some t → ¬((w.now : Int) - t > KEY_ROTATION_INTERVAL) →
      (getOrCreateEncryptionKey w).1 = k
      ∧ (getOrCreateEncryptionKey (getOrCreateEncryptionKey w).2).1 = k) := by
  constructor
  · intro he
    have hu : getOrCreateEncryptionKey w =
        (generateSecureKey (w.randStream w.genIdx), { w with genIdx := w.genIdx + 1 }) := by
      unfold getOrCreateEncryptionKey getOrCreateKeyTry nextKey
      simp [he]
    have hu2 : getOrCreateEncryptionKey { w with genIdx := w.genIdx + 1 } =
        (generateSecureKey (w.randStream (w.genIdx + 1)),
          { w with genIdx := w.genIdx + 1 + 1 }) := by
      unfold getOrCreateEncryptionKey getOrCreateKeyTry nextKey
      simp [he]
    refine ⟨by rw [hu], by rw [hu], by rw [hu], ?_⟩
    intro hb
    simp only [hu, hu2]
    exact generateSecureKey_inj hb
  · intro k s t he hf hm hk hd hp hage
    have h1 := getOrCreate_existing w k s t he hf hd hp hage hm hk
    have h2 := getOrCreate_existing { w with callIdx := w.callIdx + 1 + 1 } k s t
      he hf hd hp hage hm hk
    exact ⟨by rw [h1], by simp only [h1, h2]⟩

def c5Wu : World :=
  { store := ⟨none, none, none⟩, log := [], faults := fun _ => false,
    callIdx := 0, now := 0, randStream := fun g _ => g, genIdx := 0, env := simulatorEnv }

def c5Wt : World :=
  { store := ⟨some "KEY", some (natToString 0), none⟩, log := [], faults := fun _ => false,
    callIdx := 0, now := 0, randStream := fun g _ => g, genIdx := 0, env := trustedEnv }

/-- C5 witness: on the simulator two consecutive calls give different
keys; on a trusted device holding fresh material both calls return it. -/
theorem ephemeral_untrusted_persistent_trusted_witness :
    (getOrCreateEncryptionKey c5Wu).1 ≠
      (getOrCreateEncryptionKey (getOrCreateEncryptionKey c5Wu).2).1
  ∧ (getOrCreateEncryptionKey c5Wt).1 = "KEY"
  ∧ (getOrCreateEncryptionKey (getOrCreateEncryptionKey c5Wt).2).1 = "KEY" :=
  ⟨((ephemeral_untrusted_persistent_trusted c5Wu).1 rfl).2.2.2 (by decide),
   ((ephemeral_untrusted_persistent_trusted c5Wt).2 "KEY" (natToString 0) 0
      rfl rfl rfl (by decide) rfl (by decide) (by decide)).1,
   ((ephemeral_untrusted_persistent_trusted c5Wt).2 "KEY" (natToString 0) 0
      rfl rfl rfl (by decide) rfl (by decide) (by decide)).2⟩
